import Mathlib

/-!
Verification development for the needle-in-the-haystack multi-model server.

The definitions below are a shallow embedding of the server source
(`server/index.js`): the match evaluator (`checkExactMatch`), the
needle-test orchestrator (`runNeedleTest`), the conversation manager and
the conversation chain step (`continueConversationChain`), and the
per-provider message shaping of the adapter (`generateClaudeResponse`,
`generateGeminiResponse`, `generateOpenAIResponse`).

Strings are modelled as Lean `String` and, where character-level work is
needed (trimming, lowercasing, word boundaries), as `List Char`.
JavaScript truthiness of a string is `s ≠ ""`; of a nullable field it is
modelled with `Option`.  Message ids and timestamps (uuid / clock values)
carry no control-flow weight and are omitted from the message model.
-/

/-! ## Character and string utilities (JS `trim`, `toLowerCase`, `includes`) -/

/-- ASCII whitespace trimmed by JavaScript `String.prototype.trim`. -/
def isJsSpace (c : Char) : Bool :=
  c == ' ' || c == '\t' || c == '\n' || c == '\r' || c == '\x0b' || c == '\x0c'

/-- `s.trim()`: drop whitespace from both ends. -/
def trimChars (l : List Char) : List Char :=
  ((l.dropWhile isJsSpace).reverse.dropWhile isJsSpace).reverse

/-- `s.toLowerCase()` (ASCII range, which is all the server compares). -/
def lowerChars (l : List Char) : List Char :=
  l.map Char.toLower

/-- A regex word character `\w`: `[A-Za-z0-9_]`. -/
def isWordChar (c : Char) : Bool :=
  ('a' ≤ c && c ≤ 'z') || ('A' ≤ c && c ≤ 'Z') || ('0' ≤ c && c ≤ '9') || c == '_'

/-- Whether position `i` of `hay` is a regex word boundary `\b`:
exactly one of the characters on either side of the position is a word
character (positions outside the string count as non-word). -/
def boundaryAt (hay : List Char) (i : Nat) : Bool :=
  let before :=
    match i with
    | 0 => false
    | j + 1 =>
      match hay.get? j with
      | some c => isWordChar c
      | none => false
  let after :=
    match hay.get? i with
    | some c => isWordChar c
    | none => false
  before != after

/-- Semantics of testing the regex `\b<literal tgt>\b` against `hay`
(the target has been escaped as a literal pattern in the source, so the
regex matches exactly an occurrence of `tgt` flanked by word boundaries). -/
def wordBoundaryTest (tgt hay : List Char) : Bool :=
  (List.range (hay.length + 1)).any fun i =>
    ((hay.drop i).take tgt.length == tgt) && boundaryAt hay i && boundaryAt hay (i + tgt.length)

/-- Propositional form of `wordBoundaryTest`, following the spec wording:
the target, taken literally, occurs in the haystack wrapped with
word-boundary anchors on both sides. -/
def wordBoundarySpec (tgt hay : List Char) : Prop :=
  ∃ i, i ≤ hay.length ∧ (hay.drop i).take tgt.length = tgt ∧
    boundaryAt hay i = true ∧ boundaryAt hay (i + tgt.length) = true

/-- `hay.includes(needle)`: substring containment. -/
def containsSub (needle hay : String) : Bool :=
  (List.range (hay.toList.length + 1)).any fun i =>
    needle.toList.isPrefixOf (hay.toList.drop i)

/-! ## Match evaluator: `NeedleTestManager.checkExactMatch` -/

/-- `NeedleTestManager.checkExactMatch(response, exactMatch)`.

Source behaviour: a falsy (empty) argument returns `false`; both inputs
are trimmed and an input empty after trimming returns `false` (the
initial falsy guard is subsumed by the trim guard, since an empty string
trims to empty); otherwise both sides are lowercased and the final
result is the word-boundary regex test (`hasWordBoundary` in the source;
the substring and exact-case strategies are computed only for logging). -/
def checkExactMatch (response exactMatch : String) : Bool :=
  let cleanResponse := trimChars response.toList
  let cleanExactMatch := trimChars exactMatch.toList
  if cleanResponse.isEmpty || cleanExactMatch.isEmpty then false
  else
    let responseLower := lowerChars cleanResponse
    let exactMatchLower := lowerChars cleanExactMatch
    wordBoundaryTest exactMatchLower responseLower

/-! ## Messages and the needle-test orchestrator -/

/-- A transcript message.  `provider` is the sentinel `"user"` or a model
id; `role` is derived from it (`"user"` / `"ai"`).  The uuid `id` and the
timestamp are omitted (they carry no control flow). -/
structure Msg where
  provider : String
  content : String
  role : String
deriving DecidableEq

/-- One `(modelId, temperature, maxTokens)` tuple of a needle test. -/
structure ModelCfg where
  modelId : String
  temperature : Nat
  maxTokens : Nat
deriving DecidableEq

/-- Events emitted over the socket during a needle test. -/
inductive NEvent where
  | thinking (modelId : String)
  | result (modelId : String) (response : String) (foundNeedle : Bool)
  | errorEv (modelId : String) (message : String)
  | complete
deriving DecidableEq

/-- The single shared prompt of a needle test (source: the template
literal combining the needle question and the haystack context). -/
def needlePrompt (haystack needle : String) : String :=
  needle ++ "\n\nContext document:\n" ++ haystack

/-- The events produced by one model of the fan-out in
`NeedleTestManager.runNeedleTest`: an `aiThinking` notification, then on
success a `needleTestResult` event scored by `checkExactMatch` and on
failure a `needleTestError` event; a failure is caught per model and
never escapes.  `respond` is the provider-call oracle. -/
def needlePerModel (haystack needle exactMatch : String)
    (respond : ModelCfg → List Msg → Except String String) (mc : ModelCfg) : List NEvent :=
  NEvent.thinking mc.modelId ::
    match respond mc [Msg.mk "user" (needlePrompt haystack needle) "user"] with
    | Except.ok response => [NEvent.result mc.modelId response (checkExactMatch response exactMatch)]
    | Except.error e => [NEvent.errorEv mc.modelId e]

/-- `NeedleTestManager.runNeedleTest`: dispatch every model config, wait
for all per-model promises to settle, then emit `allTestsComplete`.  The
trace below is the sequential linearisation of the emitted events (the
concurrent interleaving permutes only the per-model blocks; the
completion event is emitted strictly after all of them settle). -/
def runNeedleTest (haystack needle exactMatch : String)
    (respond : ModelCfg → List Msg → Except String String)
    (models : List ModelCfg) : List NEvent :=
  (models.map (needlePerModel haystack needle exactMatch respond)).join ++ [NEvent.complete]

/-! ## Conversation manager (`ConversationManager`) -/

/-- A conversation record.  `initialGoal` is nullable in the source
(`null` until set), so it is an `Option`; JavaScript treats both `null`
and the empty string as falsy, which `goalFalsy` captures. -/
structure Conversation where
  userId : String
  participants : List String
  messages : List Msg
  initialGoal : Option String
  currentTurn : Nat
  isActive : Bool
  emptyResponseCount : Nat
deriving DecidableEq

/-- JS falsiness of `conversation.initialGoal` (`null` or `""`). -/
def goalFalsy : Option String → Bool
  | none => true
  | some s => s == ""

/-- `ConversationManager.createConversation`. -/
def createConversation (userId : String) (participants : List String) : Conversation :=
  { userId := userId, participants := participants, messages := [],
    initialGoal := none, currentTurn := 0, isActive := false, emptyResponseCount := 0 }

/-- `ConversationManager.addMessage(conversationId, modelId, content)`:
builds the message with role derived from the sender, sets `initialGoal`
when the sender is `"user"` and the current goal is falsy, and appends
the message to the transcript.  Returns the updated conversation and the
appended message. -/
def addMessage (c : Conversation) (modelId content : String) : Conversation × Msg :=
  let message := Msg.mk modelId content (if modelId == "user" then "user" else "ai")
  let goal := if modelId == "user" && goalFalsy c.initialGoal then some content else c.initialGoal
  ({ c with initialGoal := goal, messages := c.messages ++ [message] }, message)

/-- `ConversationManager.stopConversation`. -/
def stopConversation (c : Conversation) : Conversation :=
  { c with isActive := false }

/-- `conversation.messages.slice(-limit)`: the trailing window of the
transcript used as provider history. -/
def lastN (n : Nat) (l : List Msg) : List Msg :=
  l.drop (l.length - n)

/-- `ConversationManager.getConversationHistory(conversationId, limit)`. -/
def getConversationHistory (c : Conversation) (limit : Nat) : List Msg :=
  lastN limit c.messages

/-! ## Conversation chain (`startConversationChain` / `continueConversationChain`) -/

/-- The model-to-provider mapping embedded in
`continueConversationChain` (the conversation-side registry). -/
def modelMappingConv : String → Option String
  | "gpt-4" => some "openai"
  | "gpt-4-turbo" => some "openai"
  | "gpt-4o-mini" => some "openai"
  | "gpt-3.5-turbo" => some "openai"
  | "gemini-2.5-pro" => some "google"
  | "gemini-2.0-flash" => some "google"
  | "gemini-2.0-flash-lite" => some "google"
  | "gemini-1.5-pro" => some "google"
  | "gemini-1.5-flash" => some "google"
  | "gemini-1.0-pro" => some "google"
  | "gemini-2.5-flash-preview-05-20" => some "google"
  | "gemini-2.5-pro-preview-05-06" => some "google"
  | "claude-3-opus" => some "anthropic"
  | "claude-3-sonnet" => some "anthropic"
  | "claude-3-haiku" => some "anthropic"
  | "claude-instant" => some "anthropic"
  | _ => none

/-- Whether a participant model id passes the credential check of the
scan loop: its provider is present in the mapping and
`aiManager.getApiKey(provider, userId)` resolves a key.  `creds` is the
credential oracle for this conversation's owner (environment keys first,
then per-user keys — already resolved to a boolean per provider). -/
def hasCredential (creds : String → Bool) (modelId : String) : Bool :=
  match modelMappingConv modelId with
  | some provider => creds provider
  | none => false

/-- The candidate examined at scan offset `a` of a turn starting at
index `t`: `participants[(t + a) % participants.length]`. -/
def candAt (participants : List String) (t a : Nat) : Option String :=
  participants.get? ((t + a) % participants.length)

/-- The `while (attempts < participants.length)` scan of
`continueConversationChain`, unrolled on the number of remaining
attempts (`fuel`), starting at offset `a`. -/
def scanLoop (participants : List String) (creds : String → Bool) (t : Nat) :
    Nat → Nat → Option String
  | _, 0 => none
  | a, fuel + 1 =>
    match candAt participants t a with
    | none => none
    | some mid => if hasCredential creds mid then some mid else scanLoop participants creds t (a + 1) fuel

/-- The round-robin credential scan: starting from `currentTurn`, find
the first participant (at most `participants.length` candidates) whose
provider has a resolvable key. -/
def findModel (participants : List String) (creds : String → Bool) (t : Nat) : Option String :=
  scanLoop participants creds t 0 participants.length

/-- Socket events emitted during a conversation. -/
inductive CEvent where
  | thinking (modelId : String)
  | newMessage (m : Msg)
  | ended (reason : String)
  | errorEv (modelId : String) (message : String)
deriving DecidableEq

/-- Result of one chain step: the updated conversation, the events
emitted during the step (including those of the step's scheduled
`setTimeout` callback), and whether that callback goes on to invoke
`continueConversationChain` again. -/
structure StepResult where
  conv : Conversation
  events : List CEvent
  next : Bool
deriving DecidableEq

/-- The fixed placeholder text stored for an empty model turn. -/
def placeholderText : String := "(Previous turn provided no text output)"

/-- The error message thrown by `generateClaudeResponse` when the
provider returned empty or non-text content; `continueConversationChain`
matches on it verbatim. -/
def anthropicEmptyError : String :=
  "Anthropic response content was empty or not in the expected text format."

/-- One invocation of `continueConversationChain`, together with the
active-flag / message-ceiling re-check its scheduled callback performs
before the next invocation.  `respond` is the provider-call oracle
(`aiManager.generateResponse` on the windowed history); `creds` the
per-provider credential oracle for this conversation's owner.

Paths, as in the source:
* inactive conversation: immediate return, no events;
* no credentialed participant: deactivate, emit the stop notification,
  turn index unchanged;
* blank (whitespace-only) response: append the placeholder, bump the
  empty counter; at 5 deactivate with reason "Too many empty responses",
  otherwise advance the index and reschedule (active check only);
* non-blank response: reset the counter, append the message, emit it,
  advance the index; the callback continues only below 30 messages and
  otherwise deactivates with reason "Message limit reached";
* the recognised empty-content provider error: like the blank case but
  with reason "Too many empty/failed responses";
* any other error: emit a per-model error event, advance the index,
  reschedule (active check only). -/
def chainStep (creds : String → Bool) (respond : String → List Msg → Except String String)
    (c : Conversation) : StepResult :=
  if c.isActive = false then ⟨c, [], false⟩
  else
    match findModel c.participants creds c.currentTurn with
    | none =>
      ⟨{ c with isActive := false }, [CEvent.ended "No models with API keys available"], false⟩
    | some mid =>
      let history := lastN 20 c.messages
      match respond mid history with
      | Except.ok responseText =>
        if trimChars responseText.toList = [] then
          let c1 := (addMessage c mid placeholderText).1
          let c2 := { c1 with emptyResponseCount := c1.emptyResponseCount + 1 }
          if 5 ≤ c2.emptyResponseCount then
            ⟨{ c2 with isActive := false },
              [CEvent.thinking mid, CEvent.ended "Too many empty responses"], false⟩
          else
            let c3 := { c2 with currentTurn := c2.currentTurn + 1 }
            ⟨c3, [CEvent.thinking mid], c3.isActive⟩
        else
          let c1 := { c with emptyResponseCount := 0 }
          let (c2, m) := addMessage c1 mid responseText
          let c3 := { c2 with currentTurn := c2.currentTurn + 1 }
          if c3.isActive && c3.messages.length < 30 then
            ⟨c3, [CEvent.thinking mid, CEvent.newMessage m], true⟩
          else if c3.isActive then
            ⟨{ c3 with isActive := false },
              [CEvent.thinking mid, CEvent.newMessage m, CEvent.ended "Message limit reached"],
              false⟩
          else
            ⟨c3, [CEvent.thinking mid, CEvent.newMessage m], false⟩
      | Except.error e =>
        if e == anthropicEmptyError then
          let c1 := (addMessage c mid placeholderText).1
          let c2 := { c1 with emptyResponseCount := c1.emptyResponseCount + 1 }
          if 5 ≤ c2.emptyResponseCount then
            ⟨{ c2 with isActive := false },
              [CEvent.thinking mid, CEvent.ended "Too many empty/failed responses"], false⟩
          else
            let c3 := { c2 with currentTurn := c2.currentTurn + 1 }
            ⟨c3, [CEvent.thinking mid], c3.isActive⟩
        else
          let c3 := { c with currentTurn := c.currentTurn + 1 }
          ⟨c3, [CEvent.thinking mid, CEvent.errorEv mid e], c3.isActive⟩

/-- `startConversationChain`: mark the conversation active and push the
seed user message directly onto the transcript (note: *not* through
`addMessage` — `initialGoal` is untouched).  The subsequent turns are
`chainStep` invocations. -/
def startConversationChain (c : Conversation) (initialPrompt : String) : Conversation :=
  { c with
    isActive := true
    messages := c.messages ++
      [Msg.mk "user" (if initialPrompt == "" then "Hello" else initialPrompt) "user"] }

/-! ## Provider adapter: Claude-style message shaping
(`AIModelManager.generateClaudeResponse`, history-shaping portion) -/

/-- A provider-facing message (role already mapped). -/
structure CMsg where
  role : String
  content : String
deriving DecidableEq

/-- Role mapping: the internal `ai` role is sent as `assistant`. -/
def toClaudeRole (role : String) : String :=
  if role == "ai" then "assistant" else role

/-- The placeholder filter: keep messages whose content is truthy and
does not *contain* the placeholder text (`msg.content.includes(...)`). -/
def claudeFiltered (messages : List Msg) : List Msg :=
  messages.filter fun m => m.content != "" && !(containsSub placeholderText m.content)

/-- Filtered messages with the provider role mapping applied. -/
def claudeMapped (messages : List Msg) : List CMsg :=
  (claudeFiltered messages).map fun m => CMsg.mk (toClaudeRole m.role) m.content

/-- The merging loop: `cur` is the last processed message; a same-role
successor is merged into it with a blank-line separator, a different
role starts a new entry. -/
def mergeRuns : CMsg → List CMsg → List CMsg
  | cur, [] => [cur]
  | cur, m :: rest =>
    if m.role == cur.role then
      mergeRuns (CMsg.mk cur.role (cur.content ++ "\n\n" ++ m.content)) rest
    else
      cur :: mergeRuns m rest

/-- The processed list after merging consecutive same-role messages. -/
def claudeMerged (messages : List Msg) : List CMsg :=
  match claudeMapped messages with
  | [] => []
  | m :: rest => mergeRuns m rest

/-- `initialPrompt` of the Claude adapter: the first user-sent message's
content, defaulting to the fixed text when absent or falsy. -/
def claudeInitialPrompt (messages : List Msg) : String :=
  match messages.find? (fun m => m.provider == "user") with
  | some m => if m.content == "" then "General discussion" else m.content
  | none => "General discussion"

/-- If nothing survived filtering and merging, synthesize one user
message from the goal (the source's further `|| 'Hello'` fallback is
kept although `claudeInitialPrompt` is never empty). -/
def claudeDefaulted (messages : List Msg) : List CMsg :=
  if (claudeMerged messages).isEmpty then
    [CMsg.mk "user"
      (if claudeInitialPrompt messages == "" then "Hello" else claudeInitialPrompt messages)]
  else claudeMerged messages

/-- The full shaped list: append the synthetic continuation user message
when the list ends in an assistant message. -/
def processClaudeMessages (messages : List Msg) : List CMsg :=
  if (claudeDefaulted messages).getLast?.map CMsg.role == some "assistant" then
    claudeDefaulted messages ++ [CMsg.mk "user" "Please continue the conversation."]
  else claudeDefaulted messages

/-! ## Provider adapter: Gemini-style prompt flattening
(`AIModelManager.generateGeminiResponse`) -/

/-- The messages kept by the Gemini adapter: truthy content that is not
whitespace-only. -/
def geminiValid (messages : List Msg) : List Msg :=
  messages.filter fun m => m.content != "" && !(trimChars m.content.toList).isEmpty

/-- The conversational goal framing the flattened prompt: the first
user-sent valid message's content (`|| 'General discussion'`). -/
def geminiGoal (valid : List Msg) : String :=
  match valid.find? (fun m => m.provider == "user") with
  | some m => if m.content == "" then "General discussion" else m.content
  | none => "General discussion"

/-- An apostrophe character (U+0027), used inside the prompt literals. -/
def apos : String := (Char.ofNat 39).toString

def geminiPreambleA : String :=
  "You are having a natural conversation with other AIs about: \""

def geminiPreambleB : String :=
  "\"\n\nRespond naturally by: building on previous points, sharing your own perspective, agreeing or respectfully disagreeing, making observations, or offering new angles. Mix up your response style - sometimes make statements, sometimes share insights, sometimes pose questions, but don" ++ apos ++ "t end every response with a question. Keep the conversation flowing naturally like friends discussing a topic. Be authentic and avoid assistant-like phrases.\n\nConversation so far:\n\n"

/-- The fixed framing around the goal at the top of the flattened prompt. -/
def geminiPreamble (goal : String) : String :=
  geminiPreambleA ++ goal ++ geminiPreambleB

/-- The instruction trailer appended after the listed turns. -/
def geminiTrailer : String :=
  "Now respond naturally - maybe build on what was said, share your perspective, make an observation, or take the discussion in a new direction. Don" ++ apos ++ "t feel obligated to ask a question:"

/-- The speaker label of one listed turn. -/
def geminiSpeaker (m : Msg) : String :=
  if m.provider == "user" then "Human" else "AI (" ++ m.provider ++ ")"

/-- One `Speaker: content` line of the flattened history. -/
def geminiLine (m : Msg) : String :=
  geminiSpeaker m ++ ": " ++ m.content ++ "\n\n"

/-- The `forEach` accumulation building the conversation context. -/
def geminiContext (valid : List Msg) : String :=
  (valid.foldl (fun acc m => acc ++ geminiLine m) (geminiPreamble (geminiGoal valid)))
    ++ geminiTrailer

/-- `generateGeminiResponse`, up to the provider call: filter the
history, fail when nothing valid remains (before any call is issued),
otherwise flatten everything into the single prompt block. -/
def generateGeminiPrompt (messages : List Msg) : Except String String :=
  if (geminiValid messages).isEmpty then Except.error "No valid messages to process"
  else Except.ok (geminiContext (geminiValid messages))

/-! ## Provider adapter: structured-responses text extraction
(`AIModelManager.generateOpenAIResponse`, responses-API branch) -/

structure OAITextField where
  content : Option String
deriving DecidableEq

structure OAIContentElem where
  text : Option String
deriving DecidableEq

structure OAIOutElem where
  content : Option (List OAIContentElem)
deriving DecidableEq

/-- The `output` field; `elems` models indexed access (`output[0]`) and
`text` models property access (`output.text`), so both shapes of the
heterogeneous envelope are representable. -/
structure OAIOutputField where
  elems : List OAIOutElem
  text : Option String
deriving DecidableEq

structure OAIMessageField where
  content : Option String
deriving DecidableEq

structure OAIChoice where
  text : Option String
  message : Option OAIMessageField
deriving DecidableEq

/-- The provider response envelope, with one `Option` field per access
path the extraction code probes. -/
structure OAIResponse where
  output_text : Option String
  text : Option OAITextField
  output : Option OAIOutputField
  choices : Option (List OAIChoice)
  content : Option String
deriving DecidableEq

/-- JS truthiness of an optional string field: present and non-empty. -/
def truthyStr : Option String → Option String
  | some s => if s != "" then some s else none
  | none => none

/-- Shape 1: `response.output_text`. -/
def oaiShape1 (r : OAIResponse) : Option String := truthyStr r.output_text

/-- Shape 2: `response.text && response.text.content`. -/
def oaiShape2 (r : OAIResponse) : Option String :=
  truthyStr (r.text.bind OAITextField.content)

/-- Shape 3: `response.output[0].content[0].text` (with every
intermediate guard of the source). -/
def oaiShape3 (r : OAIResponse) : Option String :=
  truthyStr ((((r.output.map OAIOutputField.elems).bind List.head?).bind
    OAIOutElem.content).bind List.head? |>.bind OAIContentElem.text)

/-- `response.choices && response.choices[0]`. -/
def choiceFirst (r : OAIResponse) : Option OAIChoice :=
  r.choices.bind List.head?

/-- Shape 4a: `response.choices[0].text`. -/
def oaiShape4a (r : OAIResponse) : Option String :=
  truthyStr ((choiceFirst r).bind OAIChoice.text)

/-- Shape 4b: `response.choices[0].message.content`. -/
def oaiShape4b (r : OAIResponse) : Option String :=
  truthyStr (((choiceFirst r).bind OAIChoice.message).bind OAIMessageField.content)

/-- Shape 5: `response.output && response.output.text`. -/
def oaiShape5 (r : OAIResponse) : Option String :=
  truthyStr (r.output.bind OAIOutputField.text)

/-- Shape 6: `response.content`. -/
def oaiShape6 (r : OAIResponse) : Option String := truthyStr r.content

/-- Whether any known response shape yields text. -/
def oaiAnyShapeYields (r : OAIResponse) : Bool :=
  (oaiShape1 r).isSome || (oaiShape2 r).isSome || (oaiShape3 r).isSome ||
    (oaiShape4a r).isSome || (oaiShape4b r).isSome || (oaiShape5 r).isSome ||
    (oaiShape6 r).isSome

/-- The extraction cascade of the responses-API branch.  It mirrors the
source `if`/`else if` chain exactly; in particular, when the
`choices[0]` guard matches but neither of its inner fields yields text,
control falls out of the whole chain to the throw — the `output.text`
and direct-`content` shapes are *not* consulted in that case. -/
def extractOpenAIText (r : OAIResponse) : Except String String :=
  match oaiShape1 r with
  | some s => Except.ok s
  | none =>
  match oaiShape2 r with
  | some s => Except.ok s
  | none =>
  match oaiShape3 r with
  | some s => Except.ok s
  | none =>
  if (choiceFirst r).isSome then
    match oaiShape4a r with
    | some s => Except.ok s
    | none =>
      match oaiShape4b r with
      | some s => Except.ok s
      | none => Except.error "Unexpected response format from OpenAI Responses API"
  else
    match oaiShape5 r with
    | some s => Except.ok s
    | none =>
    match oaiShape6 r with
    | some s => Except.ok s
    | none => Except.error "Unexpected response format from OpenAI Responses API"

/-- Whether an adapter result is the failure case. -/
def exceptFails (e : Except String String) : Bool :=
  match e with
  | Except.error _ => true
  | Except.ok _ => false

/-! ## C3: the empty/failed-response ceiling -/

/-- A conversation one strike away from the empty-response ceiling. -/
def c3conv : Conversation :=
  { userId := "session-1", participants := ["claude-3-sonnet"], messages := [],
    initialGoal := none, currentTurn := 0, isActive := true, emptyResponseCount := 4 }

/-! ## C4: the 30-message ceiling -/

/-- An active conversation whose transcript holds 29 messages. -/
def c4conv : Conversation :=
  { userId := "session-1", participants := ["claude-3-sonnet"],
    messages := List.replicate 29 (Msg.mk "claude-3-sonnet" "earlier turn" "ai"),
    initialGoal := none, currentTurn := 0, isActive := true, emptyResponseCount := 0 }

/-- An active conversation over the three-provider participant list. -/
def c5conv : Conversation :=
  { userId := "session-1",
    participants := ["gpt-4", "gemini-2.0-flash", "claude-3-sonnet"],
    messages := [Msg.mk "user" "hello all" "user"],
    initialGoal := none, currentTurn := 4, isActive := true, emptyResponseCount := 0 }

/-! ## C10: the placeholder filter is a substring filter -/

/-- A genuine model response that merely quotes the placeholder text. -/
def quotingContent : String :=
  "I quoted (Previous turn provided no text output) deliberately"

/-- The concatenation of the per-message lines, in order. -/
def geminiLines (valid : List Msg) : String :=
  String.join (valid.map geminiLine)

/-! ## C9: structured-responses shape fallback order -/

/-- A response whose `choices[0]` exists but carries no text, while the
direct `content` field does carry text. -/
def c9resp : OAIResponse :=
  { output_text := none, text := none, output := none,
    choices := some [OAIChoice.mk none none], content := some "direct content value" }

/-- A response exposing both the direct text field and the legacy
`choices[0].message.content` field. -/
def c9both : OAIResponse :=
  { output_text := some "direct text value", text := none, output := none,
    choices := some [OAIChoice.mk none (some (OAIMessageField.mk (some "legacy value")))],
    content := none }

/-! # Theorems -/

theorem wordBoundaryTest_iff_spec (tgt hay : List Char) :
    wordBoundaryTest tgt hay = true ↔ wordBoundarySpec tgt hay := by
  unfold wordBoundaryTest wordBoundarySpec
  rw [List.any_eq_true]
  constructor
  · rintro ⟨i, hi, h⟩
    rw [List.mem_range] at hi
    simp only [Bool.and_eq_true, beq_iff_eq] at h
    exact ⟨i, Nat.lt_succ_iff.mp hi, h.1.1, h.1.2, h.2⟩
  · rintro ⟨i, hi, h1, h2, h3⟩
    refine ⟨i, List.mem_range.mpr (Nat.lt_succ_iff.mpr hi), ?_⟩
    simp only [Bool.and_eq_true, beq_iff_eq]
    exact ⟨⟨h1, h2⟩, h3⟩

/-- C1: the match evaluator trims both inputs and returns `false` if
either is empty after trimming; otherwise it returns `true` exactly when
the target, escaped as a literal pattern and wrapped with word-boundary
anchors on both sides, matches the response case-insensitively.  In
particular the documented examples hold and an empty argument on either
side yields `false`. -/
theorem checkExactMatch_spec :
    (∀ response exactMatch : String,
        trimChars response.toList = [] ∨ trimChars exactMatch.toList = [] →
        checkExactMatch response exactMatch = false)
    ∧ (∀ response exactMatch : String,
        trimChars response.toList ≠ [] → trimChars exactMatch.toList ≠ [] →
        (checkExactMatch response exactMatch = true ↔
          wordBoundarySpec (lowerChars (trimChars exactMatch.toList))
            (lowerChars (trimChars response.toList))))
    ∧ checkExactMatch "The code is ABC123." "abc123" = true
    ∧ checkExactMatch "a915609a" "15609" = false
    ∧ (∀ response : String, checkExactMatch response "" = false)
    ∧ (∀ exactMatch : String, checkExactMatch "" exactMatch = false) := by
  refine ⟨?_, ?_, by decide, by decide, ?_, ?_⟩
  · intro response exactMatch h
    simp only [String.toList] at h
    unfold checkExactMatch
    rcases h with h | h <;> simp [h, List.isEmpty_iff]
  · intro response exactMatch h1 h2
    simp only [String.toList] at h1 h2
    unfold checkExactMatch
    rw [if_neg (by simp [List.isEmpty_iff, h1, h2])]
    exact wordBoundaryTest_iff_spec _ _
  · intro response
    unfold checkExactMatch
    simp [trimChars]
  · intro exactMatch
    unfold checkExactMatch
    simp [trimChars]

/-- Witness for C1: the general clauses applied at concrete inputs. -/
theorem checkExactMatch_spec_witness :
    checkExactMatch "   " "abc" = false ∧
    checkExactMatch "needle here" "needle" = true := by
  constructor
  · exact checkExactMatch_spec.1 "   " "abc" (Or.inl (by decide))
  · exact (checkExactMatch_spec.2.1 "needle here" "needle" (by decide) (by decide)).mpr
      ⟨0, by decide, by decide, by decide, by decide⟩

theorem complete_not_mem_perModel (haystack needle exactMatch : String)
    (respond : ModelCfg → List Msg → Except String String) (mc : ModelCfg) :
    NEvent.complete ∉ needlePerModel haystack needle exactMatch respond mc := by
  unfold needlePerModel
  cases respond mc [Msg.mk "user" (needlePrompt haystack needle) "user"] <;> simp

/-- C2: every per-model call of the needle test is dispatched
independently: a failing model contributes a per-model error event while
every succeeding model still contributes its result event; exactly one
completion event is emitted and it comes after every dispatched call has
settled (it is the final event of the trace); an empty model list
completes immediately with zero result events. -/
theorem runNeedleTest_spec :
    ∀ (haystack needle exactMatch : String)
      (respond : ModelCfg → List Msg → Except String String) (models : List ModelCfg),
    ((runNeedleTest haystack needle exactMatch respond models).filter
        (fun e => e == NEvent.complete)).length = 1
    ∧ (runNeedleTest haystack needle exactMatch respond models).getLast? = some NEvent.complete
    ∧ (∀ mc ∈ models, ∀ r,
        respond mc [Msg.mk "user" (needlePrompt haystack needle) "user"] = Except.ok r →
        NEvent.result mc.modelId r (checkExactMatch r exactMatch)
          ∈ runNeedleTest haystack needle exactMatch respond models)
    ∧ (∀ mc ∈ models, ∀ e,
        respond mc [Msg.mk "user" (needlePrompt haystack needle) "user"] = Except.error e →
        NEvent.errorEv mc.modelId e ∈ runNeedleTest haystack needle exactMatch respond models)
    ∧ (models = [] → runNeedleTest haystack needle exactMatch respond models = [NEvent.complete]) := by
  intro haystack needle exactMatch respond models
  refine ⟨?_, ?_, ?_, ?_, ?_⟩
  · unfold runNeedleTest
    rw [List.filter_append]
    have hnil : ((models.map (needlePerModel haystack needle exactMatch respond)).join.filter
        (fun e => e == NEvent.complete)) = [] := by
      rw [List.filter_eq_nil]
      intro a ha
      rcases List.mem_join.mp ha with ⟨l, hl, hal⟩
      rcases List.mem_map.mp hl with ⟨mc, _, rfl⟩
      intro hbeq
      rw [beq_iff_eq] at hbeq
      subst hbeq
      exact complete_not_mem_perModel haystack needle exactMatch respond mc hal
    rw [hnil]
    rfl
  · unfold runNeedleTest
    exact List.getLast?_concat _
  · intro mc hmc r hr
    unfold runNeedleTest
    refine List.mem_append.mpr (Or.inl ?_)
    refine List.mem_join.mpr ⟨needlePerModel haystack needle exactMatch respond mc,
      List.mem_map.mpr ⟨mc, hmc, rfl⟩, ?_⟩
    unfold needlePerModel
    rw [hr]
    simp
  · intro mc hmc e he
    unfold runNeedleTest
    refine List.mem_append.mpr (Or.inl ?_)
    refine List.mem_join.mpr ⟨needlePerModel haystack needle exactMatch respond mc,
      List.mem_map.mpr ⟨mc, hmc, rfl⟩, ?_⟩
    unfold needlePerModel
    rw [he]
    simp
  · intro h
    subst h
    rfl

/-- Witness for C2: a three-model run in which the middle model fails —
both other models still produce their result events and exactly one
completion event ends the trace; the empty run is just the completion. -/
theorem runNeedleTest_spec_witness :
    (NEvent.result "gpt-4" "the code is zebra7" (checkExactMatch "the code is zebra7" "zebra7")
        ∈ runNeedleTest "doc" "find it" "zebra7"
            (fun mc _ => if mc.modelId == "gemini-2.0-flash" then Except.error "transport down"
              else Except.ok "the code is zebra7")
            [ModelCfg.mk "gpt-4" 7 100, ModelCfg.mk "gemini-2.0-flash" 7 100,
              ModelCfg.mk "claude-3-sonnet" 7 100])
    ∧ (NEvent.errorEv "gemini-2.0-flash" "transport down"
        ∈ runNeedleTest "doc" "find it" "zebra7"
            (fun mc _ => if mc.modelId == "gemini-2.0-flash" then Except.error "transport down"
              else Except.ok "the code is zebra7")
            [ModelCfg.mk "gpt-4" 7 100, ModelCfg.mk "gemini-2.0-flash" 7 100,
              ModelCfg.mk "claude-3-sonnet" 7 100])
    ∧ runNeedleTest "doc" "find it" "zebra7"
        (fun mc _ => if mc.modelId == "gemini-2.0-flash" then Except.error "transport down"
          else Except.ok "the code is zebra7") [] = [NEvent.complete] := by
  refine ⟨?_, ?_, ?_⟩
  · exact (runNeedleTest_spec "doc" "find it" "zebra7" _ _).2.2.1
      (ModelCfg.mk "gpt-4" 7 100) (by simp) "the code is zebra7" (by rfl)
  · exact (runNeedleTest_spec "doc" "find it" "zebra7" _ _).2.2.2.1
      (ModelCfg.mk "gemini-2.0-flash" 7 100) (by simp) "transport down" (by rfl)
  · exact (runNeedleTest_spec "doc" "find it" "zebra7" _ _).2.2.2.2 rfl

/-! ## Lemmas about the round-robin credential scan -/

theorem candAt_none_iff (p : List String) (t a : Nat) : candAt p t a = none ↔ p = [] := by
  unfold candAt
  constructor
  · intro h
    cases p with
    | nil => rfl
    | cons x xs =>
      exfalso
      have hlt : (t + a) % (x :: xs).length < (x :: xs).length :=
        Nat.mod_lt _ (by simp)
      rw [List.get?_eq_none] at h
      omega
  · intro h
    subst h
    simp

theorem scanLoop_some_iff (p : List String) (creds : String → Bool) (t : Nat) :
    ∀ (fuel a : Nat) (m : String),
      scanLoop p creds t a fuel = some m ↔
        ∃ j, j < fuel ∧ candAt p t (a + j) = some m ∧ hasCredential creds m = true ∧
          ∀ i, i < j → ∀ m', candAt p t (a + i) = some m' → hasCredential creds m' = false := by
  intro fuel
  induction fuel with
  | zero =>
    intro a m
    simp [scanLoop]
  | succ f ih =>
    intro a m
    cases hc : candAt p t a with
    | none =>
      have hp : p = [] := (candAt_none_iff p t a).mp hc
      subst hp
      simp only [scanLoop, hc]
      constructor
      · intro h
        exact absurd h (by simp)
      · rintro ⟨j, _, hcand, _, _⟩
        rw [(candAt_none_iff [] t (a + j)).mpr rfl] at hcand
        exact absurd hcand (by simp)
    | some mid =>
      simp only [scanLoop, hc]
      by_cases hcred : hasCredential creds mid = true
      · rw [if_pos hcred]
        constructor
        · intro h
          rw [Option.some_inj] at h
          subst h
          exact ⟨0, Nat.succ_pos f, by simpa using hc, hcred, fun i hi => absurd hi (Nat.not_lt_zero i)⟩
        · rintro ⟨j, hj, hcand, hcredm, hmin⟩
          cases j with
          | zero =>
            rw [Nat.add_zero] at hcand
            rw [hc] at hcand
            exact congrArg some (Option.some_inj.mp hcand).symm ▸ rfl
          | succ j' =>
            exact absurd hcred (by simpa using hmin 0 (Nat.succ_pos j') mid hc)
      · rw [if_neg hcred]
        rw [Bool.not_eq_true] at hcred
        rw [ih (a + 1) m]
        constructor
        · rintro ⟨j, hj, hcand, hcredm, hmin⟩
          refine ⟨j + 1, Nat.succ_lt_succ hj, ?_, hcredm, ?_⟩
          · rw [show a + (j + 1) = a + 1 + j from by omega]
            exact hcand
          · intro i hi m' hcand'
            cases i with
            | zero =>
              rw [Nat.add_zero] at hcand'
              rw [hc] at hcand'
              rw [← Option.some_inj.mp hcand']
              exact hcred
            | succ i' =>
              refine hmin i' (by omega) m' ?_
              rw [show a + 1 + i' = a + (i' + 1) from by omega]
              exact hcand'
        · rintro ⟨j, hj, hcand, hcredm, hmin⟩
          cases j with
          | zero =>
            rw [Nat.add_zero] at hcand
            rw [hc] at hcand
            rw [← Option.some_inj.mp hcand] at hcredm
            rw [hcredm] at hcred
            exact Bool.noConfusion hcred
          | succ j' =>
            refine ⟨j', by omega, ?_, hcredm, ?_⟩
            · rw [show a + 1 + j' = a + (j' + 1) from by omega]
              exact hcand
            · intro i hi m' hcand'
              refine hmin (i + 1) (by omega) m' ?_
              rw [show a + (i + 1) = a + 1 + i from by omega]
              exact hcand'

theorem scanLoop_none_iff (p : List String) (creds : String → Bool) (t : Nat) :
    ∀ (fuel a : Nat),
      scanLoop p creds t a fuel = none ↔
        ∀ j, j < fuel → ∀ m, candAt p t (a + j) = some m → hasCredential creds m = false := by
  intro fuel
  induction fuel with
  | zero =>
    intro a
    simp [scanLoop]
  | succ f ih =>
    intro a
    cases hc : candAt p t a with
    | none =>
      have hp : p = [] := (candAt_none_iff p t a).mp hc
      subst hp
      simp only [scanLoop, hc]
      constructor
      · intro _ j _ m hcand
        rw [(candAt_none_iff [] t (a + j)).mpr rfl] at hcand
        exact absurd hcand (by simp)
      · intro _
        trivial
    | some mid =>
      simp only [scanLoop, hc]
      by_cases hcred : hasCredential creds mid = true
      · rw [if_pos hcred]
        constructor
        · intro h
          exact absurd h (by simp)
        · intro h
          have := h 0 (Nat.succ_pos f) mid (by simpa using hc)
          rw [this] at hcred
          exact absurd hcred (by simp)
      · rw [if_neg hcred]
        rw [Bool.not_eq_true] at hcred
        rw [ih (a + 1)]
        constructor
        · intro h j hj m hcand
          cases j with
          | zero =>
            rw [Nat.add_zero] at hcand
            rw [hc] at hcand
            rw [← Option.some_inj.mp hcand]
            exact hcred
          | succ j' =>
            refine h j' (by omega) m ?_
            rw [show a + 1 + j' = a + (j' + 1) from by omega]
            exact hcand
        · intro h j hj m hcand
          refine h (j + 1) (by omega) m ?_
          rw [show a + (j + 1) = a + 1 + j from by omega]
          exact hcand

theorem findModel_some_iff (p : List String) (creds : String → Bool) (t : Nat) (m : String) :
    findModel p creds t = some m ↔
      ∃ j, j < p.length ∧ candAt p t j = some m ∧ hasCredential creds m = true ∧
        ∀ i, i < j → ∀ m', candAt p t i = some m' → hasCredential creds m' = false := by
  unfold findModel
  rw [scanLoop_some_iff]
  simp

theorem findModel_none_iff (p : List String) (creds : String → Bool) (t : Nat) :
    findModel p creds t = none ↔
      ∀ j, j < p.length → ∀ m, candAt p t j = some m → hasCredential creds m = false := by
  unfold findModel
  rw [scanLoop_none_iff]
  simp

theorem findModel_some_cred (p : List String) (creds : String → Bool) (t : Nat) (m : String)
    (h : findModel p creds t = some m) : hasCredential creds m = true := by
  obtain ⟨j, _, _, hcred, _⟩ := (findModel_some_iff p creds t m).mp h
  exact hcred

theorem hasCredential_user (creds : String → Bool) : hasCredential creds "user" = false := by
  rfl

theorem findModel_some_ne_user (p : List String) (creds : String → Bool) (t : Nat) (m : String)
    (h : findModel p creds t = some m) : m ≠ "user" := by
  intro hm
  subst hm
  have hcred := findModel_some_cred p creds t "user" h
  rw [hasCredential_user] at hcred
  exact Bool.noConfusion hcred

/-! ## Path lemmas for the chain step -/

theorem beq_user_false (mid : String) (h : mid ≠ "user") : (mid == "user") = false := by
  rw [beq_eq_false_iff_ne]
  exact h

theorem chainStep_inactive (creds : String → Bool)
    (respond : String → List Msg → Except String String) (c : Conversation)
    (h : c.isActive = false) : chainStep creds respond c = ⟨c, [], false⟩ := by
  unfold chainStep
  rw [if_pos h]

theorem chainStep_noModel (creds : String → Bool)
    (respond : String → List Msg → Except String String) (c : Conversation)
    (hact : c.isActive = true)
    (hfind : findModel c.participants creds c.currentTurn = none) :
    chainStep creds respond c =
      ⟨{ c with isActive := false }, [CEvent.ended "No models with API keys available"], false⟩ := by
  simp only [chainStep, hact, hfind]
  rfl

theorem chainStep_blank_cont (creds : String → Bool)
    (respond : String → List Msg → Except String String) (c : Conversation)
    (mid txt : String) (hact : c.isActive = true)
    (hfind : findModel c.participants creds c.currentTurn = some mid)
    (hresp : respond mid (lastN 20 c.messages) = Except.ok txt)
    (htrim : trimChars txt.toList = [])
    (hcount : c.emptyResponseCount + 1 < 5) :
    chainStep creds respond c =
      ⟨{ c with
          messages := c.messages ++ [Msg.mk mid placeholderText "ai"]
          emptyResponseCount := c.emptyResponseCount + 1
          currentTurn := c.currentTurn + 1 },
        [CEvent.thinking mid], true⟩ := by
  have hmid := beq_user_false mid (findModel_some_ne_user _ _ _ _ hfind)
  have hc5 : ¬ 5 ≤ c.emptyResponseCount + 1 := by omega
  simp only [String.toList] at htrim
  simp [chainStep, hact, hfind, hresp, htrim, addMessage, hmid, hc5]

theorem chainStep_blank_stop (creds : String → Bool)
    (respond : String → List Msg → Except String String) (c : Conversation)
    (mid txt : String) (hact : c.isActive = true)
    (hfind : findModel c.participants creds c.currentTurn = some mid)
    (hresp : respond mid (lastN 20 c.messages) = Except.ok txt)
    (htrim : trimChars txt.toList = [])
    (hcount : 5 ≤ c.emptyResponseCount + 1) :
    chainStep creds respond c =
      ⟨{ c with
          messages := c.messages ++ [Msg.mk mid placeholderText "ai"]
          emptyResponseCount := c.emptyResponseCount + 1
          isActive := false },
        [CEvent.thinking mid, CEvent.ended "Too many empty responses"], false⟩ := by
  have hmid := beq_user_false mid (findModel_some_ne_user _ _ _ _ hfind)
  simp only [String.toList] at htrim
  simp [chainStep, hact, hfind, hresp, htrim, addMessage, hmid, hcount]

theorem chainStep_success_cont (creds : String → Bool)
    (respond : String → List Msg → Except String String) (c : Conversation)
    (mid txt : String) (hact : c.isActive = true)
    (hfind : findModel c.participants creds c.currentTurn = some mid)
    (hresp : respond mid (lastN 20 c.messages) = Except.ok txt)
    (htrim : trimChars txt.toList ≠ [])
    (hlen : c.messages.length + 1 < 30) :
    chainStep creds respond c =
      ⟨{ c with
          emptyResponseCount := 0
          messages := c.messages ++ [Msg.mk mid txt "ai"]
          currentTurn := c.currentTurn + 1 },
        [CEvent.thinking mid, CEvent.newMessage (Msg.mk mid txt "ai")], true⟩ := by
  have hmid := beq_user_false mid (findModel_some_ne_user _ _ _ _ hfind)
  simp only [String.toList] at htrim
  simp [chainStep, hact, hfind, hresp, htrim, addMessage, hmid, hlen]

theorem chainStep_success_limit (creds : String → Bool)
    (respond : String → List Msg → Except String String) (c : Conversation)
    (mid txt : String) (hact : c.isActive = true)
    (hfind : findModel c.participants creds c.currentTurn = some mid)
    (hresp : respond mid (lastN 20 c.messages) = Except.ok txt)
    (htrim : trimChars txt.toList ≠ [])
    (hlen : 30 ≤ c.messages.length + 1) :
    chainStep creds respond c =
      ⟨{ c with
          emptyResponseCount := 0
          messages := c.messages ++ [Msg.mk mid txt "ai"]
          currentTurn := c.currentTurn + 1
          isActive := false },
        [CEvent.thinking mid, CEvent.newMessage (Msg.mk mid txt "ai"),
          CEvent.ended "Message limit reached"], false⟩ := by
  have hmid := beq_user_false mid (findModel_some_ne_user _ _ _ _ hfind)
  have hl : ¬ c.messages.length + 1 < 30 := by omega
  simp only [String.toList] at htrim
  simp [chainStep, hact, hfind, hresp, htrim, addMessage, hmid, hl]

theorem chainStep_anthropic_cont (creds : String → Bool)
    (respond : String → List Msg → Except String String) (c : Conversation)
    (mid : String) (hact : c.isActive = true)
    (hfind : findModel c.participants creds c.currentTurn = some mid)
    (hresp : respond mid (lastN 20 c.messages) = Except.error anthropicEmptyError)
    (hcount : c.emptyResponseCount + 1 < 5) :
    chainStep creds respond c =
      ⟨{ c with
          messages := c.messages ++ [Msg.mk mid placeholderText "ai"]
          emptyResponseCount := c.emptyResponseCount + 1
          currentTurn := c.currentTurn + 1 },
        [CEvent.thinking mid], true⟩ := by
  have hmid := beq_user_false mid (findModel_some_ne_user _ _ _ _ hfind)
  have hc5 : ¬ 5 ≤ c.emptyResponseCount + 1 := by omega
  simp [chainStep, hact, hfind, hresp, addMessage, hmid, hc5]

theorem chainStep_anthropic_stop (creds : String → Bool)
    (respond : String → List Msg → Except String String) (c : Conversation)
    (mid : String) (hact : c.isActive = true)
    (hfind : findModel c.participants creds c.currentTurn = some mid)
    (hresp : respond mid (lastN 20 c.messages) = Except.error anthropicEmptyError)
    (hcount : 5 ≤ c.emptyResponseCount + 1) :
    chainStep creds respond c =
      ⟨{ c with
          messages := c.messages ++ [Msg.mk mid placeholderText "ai"]
          emptyResponseCount := c.emptyResponseCount + 1
          isActive := false },
        [CEvent.thinking mid, CEvent.ended "Too many empty/failed responses"], false⟩ := by
  have hmid := beq_user_false mid (findModel_some_ne_user _ _ _ _ hfind)
  simp [chainStep, hact, hfind, hresp, addMessage, hmid, hcount]

theorem chainStep_other_error (creds : String → Bool)
    (respond : String → List Msg → Except String String) (c : Conversation)
    (mid e : String) (hact : c.isActive = true)
    (hfind : findModel c.participants creds c.currentTurn = some mid)
    (hresp : respond mid (lastN 20 c.messages) = Except.error e)
    (he : e ≠ anthropicEmptyError) :
    chainStep creds respond c =
      ⟨{ c with currentTurn := c.currentTurn + 1 },
        [CEvent.thinking mid, CEvent.errorEv mid e], true⟩ := by
  simp [chainStep, hact, hfind, hresp, he]

theorem candAt_mod (p : List String) (t a : Nat) :
    candAt p t a = candAt p (t % p.length) a := by
  unfold candAt
  congr 1
  exact (Nat.ModEq.add_right a (Nat.mod_modEq t p.length)).symm

theorem scanLoop_mod (p : List String) (creds : String → Bool) (t : Nat) :
    ∀ fuel a, scanLoop p creds t a fuel = scanLoop p creds (t % p.length) a fuel := by
  intro fuel
  induction fuel with
  | zero =>
    intro a
    rfl
  | succ f ih =>
    intro a
    cases hc : candAt p t a with
    | none =>
      have hc2 : candAt p (t % p.length) a = none := by rw [← candAt_mod]; exact hc
      simp only [scanLoop, hc, hc2]
    | some mid =>
      have hc2 : candAt p (t % p.length) a = some mid := by rw [← candAt_mod]; exact hc
      simp only [scanLoop, hc, hc2]
      by_cases h : hasCredential creds mid = true
      · rw [if_pos h, if_pos h]
      · rw [if_neg h, if_neg h]
        exact ih (a + 1)

theorem findModel_mod (p : List String) (creds : String → Bool) (t : Nat) :
    findModel p creds t = findModel p creds (t % p.length) := by
  unfold findModel
  exact scanLoop_mod p creds t p.length 0

/-- Counterexample to C3: when the fifth consecutive strike comes from a
blank (whitespace-only) successful response, the stop notification's
reason is `"Too many empty responses"`, not the claimed
`"too many empty/failed responses"` (which the source emits only on the
recognised provider-empty-content failure path). -/
theorem emptyCeiling_counterexample :
    (chainStep (fun provider => provider == "anthropic") (fun _ _ => Except.ok "") c3conv).events
      = [CEvent.thinking "claude-3-sonnet", CEvent.ended "Too many empty responses"]
    ∧ "Too many empty responses" ≠ "Too many empty/failed responses"
    ∧ "Too many empty responses" ≠ "too many empty/failed responses" := by
  refine ⟨by decide, by decide, by decide⟩

/-- C3 (amended): whenever the consecutive empty/failed-response counter
reaches 5, the conversation is deactivated (terminal), exactly one stop
notification is emitted, no further turn is scheduled, and an inactive
conversation never takes another turn; the notification's reason is
`"Too many empty responses"` when the fifth strike came from a blank
response and `"Too many empty/failed responses"` when it came from the
recognised provider-empty-content failure. -/
theorem emptyCeiling_amended :
    (∀ (creds : String → Bool) (respond : String → List Msg → Except String String)
        (c : Conversation) (mid txt : String),
        c.isActive = true → c.emptyResponseCount = 4 →
        findModel c.participants creds c.currentTurn = some mid →
        respond mid (lastN 20 c.messages) = Except.ok txt →
        trimChars txt.toList = [] →
        (chainStep creds respond c).conv.isActive = false ∧
        (chainStep creds respond c).events =
          [CEvent.thinking mid, CEvent.ended "Too many empty responses"] ∧
        (chainStep creds respond c).next = false)
    ∧ (∀ (creds : String → Bool) (respond : String → List Msg → Except String String)
        (c : Conversation) (mid : String),
        c.isActive = true → c.emptyResponseCount = 4 →
        findModel c.participants creds c.currentTurn = some mid →
        respond mid (lastN 20 c.messages) = Except.error anthropicEmptyError →
        (chainStep creds respond c).conv.isActive = false ∧
        (chainStep creds respond c).events =
          [CEvent.thinking mid, CEvent.ended "Too many empty/failed responses"] ∧
        (chainStep creds respond c).next = false)
    ∧ (∀ (creds : String → Bool) (respond : String → List Msg → Except String String)
        (c : Conversation), c.isActive = false →
        chainStep creds respond c = ⟨c, [], false⟩) := by
  refine ⟨?_, ?_, ?_⟩
  · intro creds respond c mid txt hact hcount hfind hresp htrim
    rw [chainStep_blank_stop creds respond c mid txt hact hfind hresp htrim (by omega)]
    exact ⟨rfl, rfl, rfl⟩
  · intro creds respond c mid hact hcount hfind hresp
    rw [chainStep_anthropic_stop creds respond c mid hact hfind hresp (by omega)]
    exact ⟨rfl, rfl, rfl⟩
  · intro creds respond c h
    exact chainStep_inactive creds respond c h

/-- Witness for C3 (amended), applied at a concrete conversation on both
ceiling paths and at an inactive conversation. -/
theorem emptyCeiling_amended_witness :
    (chainStep (fun provider => provider == "anthropic") (fun _ _ => Except.ok " ") c3conv).events
      = [CEvent.thinking "claude-3-sonnet", CEvent.ended "Too many empty responses"]
    ∧ (chainStep (fun provider => provider == "anthropic")
        (fun _ _ => Except.error anthropicEmptyError) c3conv).events
      = [CEvent.thinking "claude-3-sonnet", CEvent.ended "Too many empty/failed responses"]
    ∧ chainStep (fun provider => provider == "anthropic") (fun _ _ => Except.ok "hello")
        (stopConversation c3conv) = ⟨stopConversation c3conv, [], false⟩ := by
  refine ⟨?_, ?_, ?_⟩
  · exact (emptyCeiling_amended.1 (fun provider => provider == "anthropic")
      (fun _ _ => Except.ok " ") c3conv "claude-3-sonnet" " " rfl rfl (by decide) rfl
      (by decide)).2.1
  · exact (emptyCeiling_amended.2.1 (fun provider => provider == "anthropic")
      (fun _ _ => Except.error anthropicEmptyError) c3conv "claude-3-sonnet" rfl rfl
      (by decide) rfl).2.1
  · exact emptyCeiling_amended.2.2 (fun provider => provider == "anthropic")
      (fun _ _ => Except.ok "hello") (stopConversation c3conv) rfl

/-- Counterexample to C4: a placeholder-appending (blank-response) turn
brings the transcript to 30 messages, yet the conversation stays active,
no "Message limit reached" stop is emitted, a further turn is scheduled,
and that further turn actually runs (the ceiling is only checked by the
successful-turn scheduler). -/
theorem messageCeiling_counterexample :
    (chainStep (fun provider => provider == "anthropic") (fun _ _ => Except.ok "") c4conv).conv.messages.length = 30
    ∧ (chainStep (fun provider => provider == "anthropic") (fun _ _ => Except.ok "") c4conv).conv.isActive = true
    ∧ (chainStep (fun provider => provider == "anthropic") (fun _ _ => Except.ok "") c4conv).next = true
    ∧ (chainStep (fun provider => provider == "anthropic") (fun _ _ => Except.ok "") c4conv).events
      = [CEvent.thinking "claude-3-sonnet"]
    ∧ (chainStep (fun provider => provider == "anthropic") (fun _ _ => Except.ok "")
        (chainStep (fun provider => provider == "anthropic") (fun _ _ => Except.ok "") c4conv).conv).events
      = [CEvent.thinking "claude-3-sonnet"] := by
  refine ⟨by decide, by decide, by decide, by decide, by decide⟩

/-- C4 (amended): the 30-message ceiling is enforced only by the
scheduler of a successful (non-blank) turn — such a turn reaching 30
messages stops the conversation with reason "Message limit reached" and
schedules nothing further; after a placeholder-appending or failed turn
the ceiling is not consulted and a further turn is scheduled whenever
the conversation is still active (below the empty-response ceiling),
regardless of transcript length. -/
theorem messageCeiling_amended :
    (∀ (creds : String → Bool) (respond : String → List Msg → Except String String)
        (c : Conversation) (mid txt : String),
        c.isActive = true →
        findModel c.participants creds c.currentTurn = some mid →
        respond mid (lastN 20 c.messages) = Except.ok txt →
        trimChars txt.toList ≠ [] → 30 ≤ c.messages.length + 1 →
        (chainStep creds respond c).conv.isActive = false ∧
        (chainStep creds respond c).events =
          [CEvent.thinking mid, CEvent.newMessage (Msg.mk mid txt "ai"),
            CEvent.ended "Message limit reached"] ∧
        (chainStep creds respond c).next = false)
    ∧ (∀ (creds : String → Bool) (respond : String → List Msg → Except String String)
        (c : Conversation) (mid txt : String),
        c.isActive = true →
        findModel c.participants creds c.currentTurn = some mid →
        respond mid (lastN 20 c.messages) = Except.ok txt →
        trimChars txt.toList = [] → c.emptyResponseCount + 1 < 5 →
        (chainStep creds respond c).conv.isActive = true ∧
        (chainStep creds respond c).events = [CEvent.thinking mid] ∧
        (chainStep creds respond c).next = true)
    ∧ (∀ (creds : String → Bool) (respond : String → List Msg → Except String String)
        (c : Conversation) (mid e : String),
        c.isActive = true →
        findModel c.participants creds c.currentTurn = some mid →
        respond mid (lastN 20 c.messages) = Except.error e →
        e ≠ anthropicEmptyError →
        (chainStep creds respond c).conv.isActive = true ∧
        (chainStep creds respond c).events = [CEvent.thinking mid, CEvent.errorEv mid e] ∧
        (chainStep creds respond c).next = true) := by
  refine ⟨?_, ?_, ?_⟩
  · intro creds respond c mid txt hact hfind hresp htrim hlen
    rw [chainStep_success_limit creds respond c mid txt hact hfind hresp htrim hlen]
    exact ⟨rfl, rfl, rfl⟩
  · intro creds respond c mid txt hact hfind hresp htrim hcount
    rw [chainStep_blank_cont creds respond c mid txt hact hfind hresp htrim hcount]
    exact ⟨hact, rfl, rfl⟩
  · intro creds respond c mid e hact hfind hresp he
    rw [chainStep_other_error creds respond c mid e hact hfind hresp he]
    exact ⟨hact, rfl, rfl⟩

/-- Witness for C4 (amended): a successful turn at 29 messages stops at
the ceiling; a blank turn at 29 messages does not. -/
theorem messageCeiling_amended_witness :
    (chainStep (fun provider => provider == "anthropic")
        (fun _ _ => Except.ok "one more reply") c4conv).conv.isActive = false
    ∧ (chainStep (fun provider => provider == "anthropic")
        (fun _ _ => Except.ok "one more reply") c4conv).events
      = [CEvent.thinking "claude-3-sonnet",
          CEvent.newMessage (Msg.mk "claude-3-sonnet" "one more reply" "ai"),
          CEvent.ended "Message limit reached"]
    ∧ (chainStep (fun provider => provider == "anthropic") (fun _ _ => Except.ok "") c4conv).next
      = true := by
  refine ⟨?_, ?_, ?_⟩
  · exact (messageCeiling_amended.1 (fun provider => provider == "anthropic")
      (fun _ _ => Except.ok "one more reply") c4conv "claude-3-sonnet" "one more reply" rfl
      (by decide) rfl (by decide) (by decide)).1
  · exact (messageCeiling_amended.1 (fun provider => provider == "anthropic")
      (fun _ _ => Except.ok "one more reply") c4conv "claude-3-sonnet" "one more reply" rfl
      (by decide) rfl (by decide) (by decide)).2.1
  · exact (messageCeiling_amended.2.1 (fun provider => provider == "anthropic")
      (fun _ _ => Except.ok "") c4conv "claude-3-sonnet" "" rfl (by decide) rfl (by decide)
      (by decide)).2.2

/-! ## C5: round-robin credential scan -/

/-- C5: on each turn step the orchestrator scans participants in
round-robin order from the current turn index, examining at most
`participants.length` candidates, and selects the first one whose
provider has a resolvable credential (first conjunct, the first-match
characterisation of `findModel`); when none resolves the conversation is
deactivated with a stop notification and the turn index is not advanced
(second conjunct — the resulting conversation keeps `currentTurn`); for
participants `[gpt-4, gemini-2.0-flash, claude-3-sonnet]` with only the
anthropic credential present, every turn selects `claude-3-sonnet`
(third conjunct) and a completed turn still advances the index by
exactly 1 (fourth conjunct). -/
theorem roundRobin_spec :
    (∀ (p : List String) (creds : String → Bool) (t : Nat) (m : String),
        findModel p creds t = some m ↔
          ∃ j, j < p.length ∧ candAt p t j = some m ∧ hasCredential creds m = true ∧
            ∀ i, i < j → ∀ m', candAt p t i = some m' → hasCredential creds m' = false)
    ∧ (∀ (creds : String → Bool) (respond : String → List Msg → Except String String)
        (c : Conversation), c.isActive = true →
        findModel c.participants creds c.currentTurn = none →
        chainStep creds respond c =
          ⟨{ c with isActive := false },
            [CEvent.ended "No models with API keys available"], false⟩)
    ∧ (∀ t : Nat, findModel ["gpt-4", "gemini-2.0-flash", "claude-3-sonnet"]
        (fun provider => provider == "anthropic") t = some "claude-3-sonnet")
    ∧ (∀ (respond : String → List Msg → Except String String) (c : Conversation) (txt : String),
        c.isActive = true →
        c.participants = ["gpt-4", "gemini-2.0-flash", "claude-3-sonnet"] →
        respond "claude-3-sonnet" (lastN 20 c.messages) = Except.ok txt →
        trimChars txt.toList ≠ [] → c.messages.length + 1 < 30 →
        (chainStep (fun provider => provider == "anthropic") respond c).conv.currentTurn
          = c.currentTurn + 1 ∧
        (chainStep (fun provider => provider == "anthropic") respond c).events
          = [CEvent.thinking "claude-3-sonnet",
              CEvent.newMessage (Msg.mk "claude-3-sonnet" txt "ai")]) := by
  have hsel : ∀ t : Nat, findModel ["gpt-4", "gemini-2.0-flash", "claude-3-sonnet"]
      (fun provider => provider == "anthropic") t = some "claude-3-sonnet" := by
    intro t
    rw [findModel_mod]
    have h3 : t % (["gpt-4", "gemini-2.0-flash", "claude-3-sonnet"] : List String).length = 0
        ∨ t % (["gpt-4", "gemini-2.0-flash", "claude-3-sonnet"] : List String).length = 1
        ∨ t % (["gpt-4", "gemini-2.0-flash", "claude-3-sonnet"] : List String).length = 2 := by
      simp only [List.length_cons, List.length_nil]
      omega
    rcases h3 with h | h | h <;> rw [h] <;> decide
  refine ⟨findModel_some_iff, ?_, hsel, ?_⟩
  · intro creds respond c hact hfind
    exact chainStep_noModel creds respond c hact hfind
  · intro respond c txt hact hparts hresp htrim hlen
    have hfind : findModel c.participants (fun provider => provider == "anthropic")
        c.currentTurn = some "claude-3-sonnet" := by
      rw [hparts]
      exact hsel c.currentTurn
    rw [chainStep_success_cont (fun provider => provider == "anthropic") respond c
      "claude-3-sonnet" txt hact hfind hresp htrim hlen]
    exact ⟨rfl, rfl⟩

/-- Witness for C5: at turn index 4 of the three-participant list the
scan still selects `claude-3-sonnet` and the completed turn advances the
index to 5. -/
theorem roundRobin_spec_witness :
    findModel ["gpt-4", "gemini-2.0-flash", "claude-3-sonnet"]
      (fun provider => provider == "anthropic") 4 = some "claude-3-sonnet"
    ∧ (chainStep (fun provider => provider == "anthropic")
        (fun _ _ => Except.ok "my turn") c5conv).conv.currentTurn = 5 := by
  constructor
  · exact roundRobin_spec.2.2.1 4
  · exact (roundRobin_spec.2.2.2 (fun _ _ => Except.ok "my turn") c5conv "my turn" rfl rfl
      rfl (by decide) (by decide)).1

/-! ## C6: the `initialGoal` field -/

/-- Counterexample to C6: the conversation-start path appends the first
user-authored message directly to the transcript without going through
`addMessage`, so `initialGoal` is never set from it — it stays `null`. -/
theorem initialGoal_counterexample :
    (startConversationChain (createConversation "session-1" ["claude-3-sonnet"])
        "discuss gardens").messages
      = [Msg.mk "user" "discuss gardens" "user"]
    ∧ (startConversationChain (createConversation "session-1" ["claude-3-sonnet"])
        "discuss gardens").initialGoal = none := by
  exact ⟨rfl, rfl⟩

/-- C6 (amended): `initialGoal` is written only by `addMessage`: a user
message appended through `addMessage` while the goal is null or empty
sets it to that message's content; once the goal holds a non-empty
value, no operation (conversation start, any `addMessage`, stop, or a
whole chain step) changes it; the conversation-start path appends its
seed user message directly and leaves `initialGoal` untouched, and model
turns (never sent by `"user"`) leave it untouched as well. -/
theorem initialGoal_amended :
    (∀ (c : Conversation) (prompt : String),
        (startConversationChain c prompt).initialGoal = c.initialGoal)
    ∧ (∀ (c : Conversation) (content : String), goalFalsy c.initialGoal = true →
        ((addMessage c "user" content).1).initialGoal = some content)
    ∧ (∀ (c : Conversation) (modelId content g : String), c.initialGoal = some g → g ≠ "" →
        ((addMessage c modelId content).1).initialGoal = some g)
    ∧ (∀ (c : Conversation) (modelId content : String), modelId ≠ "user" →
        ((addMessage c modelId content).1).initialGoal = c.initialGoal)
    ∧ (∀ c : Conversation, (stopConversation c).initialGoal = c.initialGoal)
    ∧ (∀ (creds : String → Bool) (respond : String → List Msg → Except String String)
        (c : Conversation), (chainStep creds respond c).conv.initialGoal = c.initialGoal) := by
  refine ⟨fun c prompt => rfl, ?_, ?_, ?_, fun c => rfl, ?_⟩
  · intro c content h
    simp [addMessage, h]
  · intro c modelId content g hg hne
    simp [addMessage, goalFalsy, hg, hne]
  · intro c modelId content h
    simp [addMessage, h]
  · intro creds respond c
    cases hact : c.isActive with
    | false =>
      rw [chainStep_inactive creds respond c hact]
    | true =>
      cases hfind : findModel c.participants creds c.currentTurn with
      | none =>
        rw [chainStep_noModel creds respond c hact hfind]
      | some mid =>
        cases hresp : respond mid (lastN 20 c.messages) with
        | ok txt =>
          by_cases htrim : trimChars txt.toList = []
          · by_cases hcount : 5 ≤ c.emptyResponseCount + 1
            · rw [chainStep_blank_stop creds respond c mid txt hact hfind hresp htrim hcount]
            · rw [chainStep_blank_cont creds respond c mid txt hact hfind hresp htrim
                (by omega)]
          · by_cases hlen : c.messages.length + 1 < 30
            · rw [chainStep_success_cont creds respond c mid txt hact hfind hresp htrim hlen]
            · rw [chainStep_success_limit creds respond c mid txt hact hfind hresp htrim
                (by omega)]
        | error e =>
          by_cases he : e = anthropicEmptyError
          · subst he
            by_cases hcount : 5 ≤ c.emptyResponseCount + 1
            · rw [chainStep_anthropic_stop creds respond c mid hact hfind hresp hcount]
            · rw [chainStep_anthropic_cont creds respond c mid hact hfind hresp (by omega)]
          · rw [chainStep_other_error creds respond c mid e hact hfind hresp he]

/-- Witness for C6 (amended), applied at concrete conversations. -/
theorem initialGoal_amended_witness :
    ((addMessage (createConversation "session-1" ["claude-3-sonnet"]) "user"
        "discuss gardens").1).initialGoal = some "discuss gardens"
    ∧ ((addMessage
          ((addMessage (createConversation "session-1" ["claude-3-sonnet"]) "user"
            "discuss gardens").1) "user" "second goal").1).initialGoal
        = some "discuss gardens"
    ∧ ((addMessage
          ((addMessage (createConversation "session-1" ["claude-3-sonnet"]) "user"
            "discuss gardens").1) "claude-3-sonnet" "a reply").1).initialGoal
        = some "discuss gardens" := by
  refine ⟨?_, ?_, ?_⟩
  · exact initialGoal_amended.2.1 (createConversation "session-1" ["claude-3-sonnet"])
      "discuss gardens" (by decide)
  · exact initialGoal_amended.2.2.1
      ((addMessage (createConversation "session-1" ["claude-3-sonnet"]) "user"
        "discuss gardens").1) "user" "second goal" "discuss gardens" (by decide) (by decide)
  · exact initialGoal_amended.2.2.1
      ((addMessage (createConversation "session-1" ["claude-3-sonnet"]) "user"
        "discuss gardens").1) "claude-3-sonnet" "a reply" "discuss gardens" (by decide)
      (by decide)

/-! ## Lemmas about the Claude message shaping -/

theorem getLast?_mem_self {α : Type} (l : List α) (z : α) (h : l.getLast? = some z) :
    z ∈ l := by
  obtain ⟨hne, rfl⟩ := List.mem_getLast?_eq_getLast (Option.mem_def.mpr h)
  exact List.getLast_mem hne

theorem mergeRuns_ne_nil (cur : CMsg) (l : List CMsg) : mergeRuns cur l ≠ [] := by
  induction l generalizing cur with
  | nil => simp [mergeRuns]
  | cons m rest ih =>
    rw [mergeRuns]
    by_cases h : (m.role == cur.role) = true
    · rw [if_pos h]
      exact ih _
    · rw [if_neg h]
      simp

theorem mergeRuns_head_role (cur : CMsg) (l : List CMsg) :
    ∃ x rest, mergeRuns cur l = x :: rest ∧ x.role = cur.role := by
  induction l generalizing cur with
  | nil => exact ⟨cur, [], rfl, rfl⟩
  | cons m rest ih =>
    rw [mergeRuns]
    by_cases h : (m.role == cur.role) = true
    · rw [if_pos h]
      obtain ⟨x, r2, he, hr⟩ := ih (CMsg.mk cur.role (cur.content ++ "\n\n" ++ m.content))
      exact ⟨x, r2, he, hr⟩
    · rw [if_neg h]
      exact ⟨cur, mergeRuns m rest, rfl, rfl⟩

theorem mergeRuns_chain (cur : CMsg) (l : List CMsg) :
    List.Chain' (fun a b => a.role ≠ b.role) (mergeRuns cur l) := by
  induction l generalizing cur with
  | nil => simp [mergeRuns]
  | cons m rest ih =>
    rw [mergeRuns]
    by_cases h : (m.role == cur.role) = true
    · rw [if_pos h]
      exact ih _
    · rw [if_neg h]
      obtain ⟨x, r2, he, hr⟩ := mergeRuns_head_role m rest
      rw [he, List.chain'_cons]
      constructor
      · rw [hr]
        intro heq
        rw [beq_iff_eq] at h
        exact h (heq.symm)
      · rw [← he]
        exact ih m

theorem mergeRuns_roles (P : String → Prop) (cur : CMsg) (l : List CMsg)
    (hcur : P cur.role) (hl : ∀ m ∈ l, P m.role) :
    ∀ x ∈ mergeRuns cur l, P x.role := by
  induction l generalizing cur with
  | nil =>
    intro x hx
    rw [mergeRuns] at hx
    rw [List.mem_singleton] at hx
    subst hx
    exact hcur
  | cons m rest ih =>
    intro x hx
    rw [mergeRuns] at hx
    by_cases h : (m.role == cur.role) = true
    · rw [if_pos h] at hx
      exact ih (CMsg.mk cur.role (cur.content ++ "\n\n" ++ m.content)) hcur
        (fun m' hm' => hl m' (List.mem_cons_of_mem _ hm')) x hx
    · rw [if_neg h] at hx
      rcases List.mem_cons.mp hx with h1 | h2
      · subst h1
        exact hcur
      · exact ih m (hl m (List.mem_cons_self _ _))
          (fun m' hm' => hl m' (List.mem_cons_of_mem _ hm')) x h2

theorem claudeInitialPrompt_ne_empty (messages : List Msg) :
    claudeInitialPrompt messages ≠ "" := by
  unfold claudeInitialPrompt
  cases h : messages.find? (fun m => m.provider == "user") with
  | none => simp [h]
  | some m =>
    simp only [h]
    by_cases hc : (m.content == "") = true
    · simp [hc]
    · rw [if_neg hc]
      simpa using hc

theorem claudeMerged_chain (messages : List Msg) :
    List.Chain' (fun a b => a.role ≠ b.role) (claudeMerged messages) := by
  unfold claudeMerged
  cases claudeMapped messages with
  | nil => simp
  | cons m rest => exact mergeRuns_chain m rest

theorem claudeDefaulted_ne_nil (messages : List Msg) : claudeDefaulted messages ≠ [] := by
  unfold claudeDefaulted
  by_cases h : (claudeMerged messages).isEmpty = true
  · rw [if_pos h]
    simp
  · rw [if_neg h]
    rw [List.isEmpty_iff] at h
    exact h

theorem claudeDefaulted_chain (messages : List Msg) :
    List.Chain' (fun a b => a.role ≠ b.role) (claudeDefaulted messages) := by
  unfold claudeDefaulted
  by_cases h : (claudeMerged messages).isEmpty = true
  · rw [if_pos h]
    simp
  · rw [if_neg h]
    exact claudeMerged_chain messages

theorem claudeDefaulted_roles (messages : List Msg)
    (hroles : ∀ m ∈ messages, m.role = "user" ∨ m.role = "ai") :
    ∀ x ∈ claudeDefaulted messages, x.role = "user" ∨ x.role = "assistant" := by
  unfold claudeDefaulted
  by_cases h : (claudeMerged messages).isEmpty = true
  · rw [if_pos h]
    intro x hx
    rw [List.mem_singleton] at hx
    subst hx
    exact Or.inl rfl
  · rw [if_neg h]
    intro x hx
    unfold claudeMerged at hx
    cases hm : claudeMapped messages with
    | nil =>
      rw [hm] at hx
      exact absurd hx (by simp)
    | cons m0 rest =>
      rw [hm] at hx
      have hall : ∀ y ∈ claudeMapped messages, y.role = "user" ∨ y.role = "assistant" := by
        intro y hy
        unfold claudeMapped at hy
        rcases List.mem_map.mp hy with ⟨msg, hmem, rfl⟩
        have := hroles msg (List.mem_filter.mp (by exact hmem)).1
        unfold toClaudeRole
        rcases this with hr | hr
        · rw [hr]
          exact Or.inl rfl
        · rw [hr]
          exact Or.inr rfl
      refine mergeRuns_roles (fun r => r = "user" ∨ r = "assistant") m0 rest ?_ ?_ x hx
      · exact hall m0 (by rw [hm]; exact List.mem_cons_self _ _)
      · intro m' hm'
        exact hall m' (by rw [hm]; exact List.mem_cons_of_mem _ hm')

/-! ## C7: Claude-style role alternation and shaping -/

/-- C7: for every history handed to the Claude-style adapter, placeholder
messages are dropped before shaping; consecutive same-role messages are
merged (the shaped list never holds two adjacent same-role entries, and
the documented two-assistant example merges with a blank-line
separator); an empty processed list is replaced by a single user message
synthesized from the original goal (or the default); and the final list
always ends with a user-role message (a trailing assistant message gets
the synthetic "please continue" user message appended). -/
theorem claudeShaping_spec :
    (∀ (messages : List Msg) (m : Msg), m ∈ claudeFiltered messages →
        containsSub placeholderText m.content = false)
    ∧ (∀ messages : List Msg,
        List.Chain' (fun a b => a.role ≠ b.role) (processClaudeMessages messages))
    ∧ (∀ messages : List Msg, claudeFiltered messages = [] →
        processClaudeMessages messages = [CMsg.mk "user" (claudeInitialPrompt messages)])
    ∧ (∀ messages : List Msg, (∀ m ∈ messages, m.role = "user" ∨ m.role = "ai") →
        (processClaudeMessages messages).getLast?.map CMsg.role = some "user")
    ∧ processClaudeMessages [Msg.mk "claude-3-sonnet" "X" "ai", Msg.mk "gpt-4" "Y" "ai"]
      = [CMsg.mk "assistant" "X\n\nY", CMsg.mk "user" "Please continue the conversation."] := by
  refine ⟨?_, ?_, ?_, ?_, by decide⟩
  · intro messages m hm
    unfold claudeFiltered at hm
    have hpred := (List.mem_filter.mp hm).2
    simp only [Bool.and_eq_true, Bool.not_eq_true'] at hpred
    exact hpred.2
  · intro messages
    unfold processClaudeMessages
    by_cases h : ((claudeDefaulted messages).getLast?.map CMsg.role == some "assistant") = true
    · rw [if_pos h]
      rw [beq_iff_eq] at h
      obtain ⟨z, hz, hzrole⟩ := Option.map_eq_some'.mp h
      refine List.Chain'.append (claudeDefaulted_chain messages) (by simp) ?_
      intro x hx y hy
      rw [Option.mem_def, hz] at hx
      have hx' : z = x := Option.some_inj.mp hx
      subst hx'
      have hy' : y = CMsg.mk "user" "Please continue the conversation." := by
        have := hy
        simp only [List.head?_cons, Option.mem_def, Option.some_inj] at this
        exact this.symm
      subst hy'
      rw [hzrole]
      decide
    · rw [if_neg h]
      exact claudeDefaulted_chain messages
  · intro messages hf
    have hmap : claudeMapped messages = [] := by
      unfold claudeMapped
      rw [hf]
      rfl
    have hmerged : claudeMerged messages = [] := by
      unfold claudeMerged
      rw [hmap]
    have hdef : claudeDefaulted messages = [CMsg.mk "user" (claudeInitialPrompt messages)] := by
      unfold claudeDefaulted
      rw [hmerged]
      rw [if_pos (by rfl)]
      rw [if_neg (show ¬ (claudeInitialPrompt messages == "") = true by
        simpa using claudeInitialPrompt_ne_empty messages)]
    unfold processClaudeMessages
    rw [hdef]
    rw [if_neg (by simp)]
  · intro messages hroles
    unfold processClaudeMessages
    by_cases h : ((claudeDefaulted messages).getLast?.map CMsg.role == some "assistant") = true
    · rw [if_pos h]
      rw [List.getLast?_concat]
      rfl
    · rw [if_neg h]
      have hne := claudeDefaulted_ne_nil messages
      have hz : (claudeDefaulted messages).getLast? =
          some ((claudeDefaulted messages).getLast hne) :=
        List.getLast?_eq_getLast_of_ne_nil hne
      have hmem : (claudeDefaulted messages).getLast hne ∈ claudeDefaulted messages :=
        List.getLast_mem hne
      rcases claudeDefaulted_roles messages hroles _ hmem with hr | hr
      · rw [hz, Option.map_some', hr]
      · exfalso
        apply h
        rw [beq_iff_eq, hz, Option.map_some', hr]

/-- Witness for C7: the empty-after-filtering case synthesizes the default
user message, and the alternation clause applied to a mixed history. -/
theorem claudeShaping_spec_witness :
    processClaudeMessages [Msg.mk "gpt-4" placeholderText "ai"]
      = [CMsg.mk "user" "General discussion"]
    ∧ (processClaudeMessages [Msg.mk "user" "hello" "user",
        Msg.mk "claude-3-sonnet" "hi there" "ai"]).getLast?.map CMsg.role = some "user" := by
  constructor
  · exact claudeShaping_spec.2.2.1 [Msg.mk "gpt-4" placeholderText "ai"] (by decide)
  · exact claudeShaping_spec.2.2.2.1 [Msg.mk "user" "hello" "user",
      Msg.mk "claude-3-sonnet" "hi there" "ai"] (by decide)

/-- C10: the Claude-style placeholder filter removes every history
message whose content *contains* the placeholder substring anywhere —
not only messages that are exactly the placeholder — so a genuine
non-empty response quoting the placeholder is silently excluded from the
shaped request. -/
theorem placeholderFilter_spec :
    (∀ (messages : List Msg) (m : Msg), m ∈ messages →
        containsSub placeholderText m.content = true → m ∉ claudeFiltered messages)
    ∧ quotingContent ≠ placeholderText
    ∧ quotingContent ≠ ""
    ∧ containsSub placeholderText quotingContent = true
    ∧ claudeFiltered
        [Msg.mk "user" "hi" "user", Msg.mk "claude-3-sonnet" quotingContent "ai"]
      = [Msg.mk "user" "hi" "user"]
    ∧ processClaudeMessages
        [Msg.mk "user" "hi" "user", Msg.mk "claude-3-sonnet" quotingContent "ai"]
      = [CMsg.mk "user" "hi"] := by
  refine ⟨?_, by decide, by decide, by decide, by decide, by decide⟩
  intro messages m hmem hsub hcontra
  have hpred := (List.mem_filter.mp hcontra).2
  simp only [Bool.and_eq_true, Bool.not_eq_true'] at hpred
  rw [hpred.2] at hsub
  exact Bool.noConfusion hsub

/-- Witness for C10: the quoting message is excluded from its own
singleton history. -/
theorem placeholderFilter_spec_witness :
    Msg.mk "claude-3-sonnet" quotingContent "ai" ∉
      claudeFiltered [Msg.mk "claude-3-sonnet" quotingContent "ai"] := by
  exact placeholderFilter_spec.1 [Msg.mk "claude-3-sonnet" quotingContent "ai"]
    (Msg.mk "claude-3-sonnet" quotingContent "ai") (by decide) (by decide)

/-! ## Lemmas about the Gemini prompt flattening -/

theorem strAppend_assoc (a b c : String) : a ++ b ++ c = a ++ (b ++ c) := by
  cases a
  cases b
  cases c
  exact congrArg String.mk (List.append_assoc _ _ _)

theorem foldl_strAppend (l : List String) :
    ∀ b : String, l.foldl (fun r s => r ++ s) b = b ++ l.foldl (fun r s => r ++ s) "" := by
  induction l with
  | nil =>
    intro b
    simp [String.append_empty]
  | cons s rest ih =>
    intro b
    rw [List.foldl_cons, List.foldl_cons, ih (b ++ s), ih ("" ++ s), String.empty_append,
      strAppend_assoc]

theorem strJoin_cons (s : String) (l : List String) :
    String.join (s :: l) = s ++ String.join l := by
  simp only [String.join, List.foldl_cons, String.empty_append]
  exact foldl_strAppend l s

theorem foldl_append_lines (valid : List Msg) :
    ∀ b : String, valid.foldl (fun acc m => acc ++ geminiLine m) b = b ++ geminiLines valid := by
  induction valid with
  | nil =>
    intro b
    simp [geminiLines, String.join, String.append_empty]
  | cons m rest ih =>
    intro b
    rw [List.foldl_cons, ih (b ++ geminiLine m)]
    rw [strAppend_assoc]
    congr 1
    rw [show geminiLines (m :: rest) = String.join (geminiLine m :: rest.map geminiLine) from rfl]
    rw [strJoin_cons]
    rfl

/-! ## C8: Gemini prompt flattening -/

/-- C8: the Gemini-style adapter filters out messages with empty or
whitespace-only content; when nothing remains it fails with the
no-valid-input error without issuing a call; otherwise the whole
remaining history is flattened into one text block: the framing prefix
restating the conversational goal (the first user message of the kept
history, with a default), every kept turn as a `Speaker: content` line
in order, and the instruction trailer. -/
theorem geminiFlatten_spec :
    (∀ (messages : List Msg) (m : Msg),
        m ∈ geminiValid messages ↔ m ∈ messages ∧ trimChars m.content.toList ≠ [])
    ∧ (∀ messages : List Msg, geminiValid messages = [] →
        generateGeminiPrompt messages = Except.error "No valid messages to process")
    ∧ (∀ messages : List Msg, geminiValid messages ≠ [] →
        generateGeminiPrompt messages = Except.ok
          (geminiPreambleA ++ geminiGoal (geminiValid messages) ++ geminiPreambleB ++
            geminiLines (geminiValid messages) ++ geminiTrailer)) := by
  refine ⟨?_, ?_, ?_⟩
  · intro messages m
    unfold geminiValid
    rw [List.mem_filter]
    constructor
    · rintro ⟨h1, h2⟩
      rw [Bool.and_eq_true] at h2
      refine ⟨h1, fun hnil => ?_⟩
      have h22 := h2.2
      rw [Bool.not_eq_true'] at h22
      rw [hnil] at h22
      exact absurd h22 (by decide)
    · rintro ⟨h1, h2⟩
      refine ⟨h1, ?_⟩
      have hcontent : m.content ≠ "" := by
        intro hc
        apply h2
        rw [hc]
        rfl
      simp only [Bool.and_eq_true, bne_iff_ne, Bool.not_eq_true', List.isEmpty_iff]
      exact ⟨hcontent, by simpa [List.isEmpty_iff] using h2⟩
  · intro messages h
    unfold generateGeminiPrompt
    rw [if_pos (by rw [h]; rfl)]
  · intro messages hne
    unfold generateGeminiPrompt
    rw [if_neg (by simpa [List.isEmpty_iff] using hne)]
    unfold geminiContext
    rw [foldl_append_lines]
    rfl

/-- Witness for C8: a whitespace-only history fails before any call; a
two-turn history flattens into the single framed prompt block. -/
theorem geminiFlatten_spec_witness :
    generateGeminiPrompt [Msg.mk "user" "   " "user"]
      = Except.error "No valid messages to process"
    ∧ generateGeminiPrompt
        [Msg.mk "user" "Tell me about bees" "user", Msg.mk "gpt-4" "Bees are great" "ai"]
      = Except.ok (geminiPreambleA ++
          geminiGoal (geminiValid
            [Msg.mk "user" "Tell me about bees" "user",
              Msg.mk "gpt-4" "Bees are great" "ai"]) ++ geminiPreambleB ++
          geminiLines (geminiValid
            [Msg.mk "user" "Tell me about bees" "user",
              Msg.mk "gpt-4" "Bees are great" "ai"]) ++ geminiTrailer) := by
  constructor
  · exact geminiFlatten_spec.2.1 [Msg.mk "user" "   " "user"] (by decide)
  · exact geminiFlatten_spec.2.2
      [Msg.mk "user" "Tell me about bees" "user", Msg.mk "gpt-4" "Bees are great" "ai"]
      (by decide)

/-- Counterexample to C9: the adapter does *not* fail exactly when no
known shape yields text — a response with an empty first choices entry
and a populated direct `content` field still fails, because the matched
`choices[0]` guard falls through to the throw without consulting the
later shapes. -/
theorem oaiFallback_counterexample :
    extractOpenAIText c9resp
      = Except.error "Unexpected response format from OpenAI Responses API"
    ∧ oaiShape6 c9resp = some "direct content value"
    ∧ oaiAnyShapeYields c9resp = true := by
  refine ⟨rfl, rfl, rfl⟩

/-- C9 (amended): the shapes are tried in a fixed priority order in
which the direct text field comes first — a response exposing it always
yields its value, legacy fields notwithstanding — and the adapter fails
exactly when the first three shapes yield nothing and either the matched
`choices[0]` guard yields nothing from its two fields (the `output.text`
and direct `content` shapes are then not consulted) or, with no
`choices[0]` present, those last two shapes yield nothing either. -/
theorem oaiFallback_amended :
    (∀ (r : OAIResponse) (s : String), oaiShape1 r = some s →
        extractOpenAIText r = Except.ok s)
    ∧ (∀ r : OAIResponse, exceptFails (extractOpenAIText r) = true ↔
        (oaiShape1 r = none ∧ oaiShape2 r = none ∧ oaiShape3 r = none ∧
          ((choiceFirst r).isSome = true → oaiShape4a r = none ∧ oaiShape4b r = none) ∧
          ((choiceFirst r).isSome = false → oaiShape5 r = none ∧ oaiShape6 r = none))) := by
  constructor
  · intro r s h
    simp only [extractOpenAIText, h]
  · intro r
    cases h1 : oaiShape1 r with
    | some s => simp [extractOpenAIText, exceptFails, h1]
    | none =>
    cases h2 : oaiShape2 r with
    | some s => simp [extractOpenAIText, exceptFails, h1, h2]
    | none =>
    cases h3 : oaiShape3 r with
    | some s => simp [extractOpenAIText, exceptFails, h1, h2, h3]
    | none =>
    by_cases hc : (choiceFirst r).isSome = true
    · cases h4a : oaiShape4a r with
      | some s => simp [extractOpenAIText, exceptFails, h1, h2, h3, hc, h4a]
      | none =>
      cases h4b : oaiShape4b r with
      | some s => simp [extractOpenAIText, exceptFails, h1, h2, h3, hc, h4a, h4b]
      | none => simp [extractOpenAIText, exceptFails, h1, h2, h3, hc, h4a, h4b]
    · have hc' : (choiceFirst r).isSome = false := by
        revert hc
        cases (choiceFirst r).isSome <;> simp
      cases h5 : oaiShape5 r with
      | some s => simp [extractOpenAIText, exceptFails, h1, h2, h3, hc', h5]
      | none =>
      cases h6 : oaiShape6 r with
      | some s => simp [extractOpenAIText, exceptFails, h1, h2, h3, hc', h5, h6]
      | none => simp [extractOpenAIText, exceptFails, h1, h2, h3, hc', h5, h6]

/-- Witness for C9 (amended): with both fields present the direct text
field wins. -/
theorem oaiFallback_amended_witness :
    extractOpenAIText c9both = Except.ok "direct text value"
    ∧ oaiShape4b c9both = some "legacy value" := by
  constructor
  · exact oaiFallback_amended.1 c9both "direct text value" rfl
  · rfl

